import Mathlib

/-!
Verification of the game-state core of a falling-block puzzle game
(source: src/main.py).  The data model and the operations below are a
shallow embedding of the Python classes `Tetrimino` and `GameState`:
pure computations become Lean functions, the mutating methods become
functions from the state to the new state (paired with their returned
value), and the two clocks (`pygame.time.get_ticks()` in milliseconds
and `time.time()` in seconds) become explicit integer parameters.
Grid cells hold either `none` (the Python `0`, an empty cell) or
`some c` (a settled block of color `c`, a Python RGB tuple).
-/

/-! ### Constants (class `Constants` in the source) -/

def GRID_WIDTH : Nat := 10

def GRID_HEIGHT : Nat := 20

def SKILL_COOLDOWN : Int := 45

def INITIAL_MOVE_DELAY : Nat := 1000

def MIN_REPEAT_DELAY : Nat := 50

def MAX_REPEAT_DELAY : Nat := 300

abbrev Color := Int × Int × Int

abbrev Cell := Option Color

abbrev Grid := List (List Cell)

def WHITE : Color := (255, 255, 255)

def RED : Color := (255, 0, 0)

def CYAN : Color := (0, 255, 255)

def MAGENTA : Color := (255, 0, 255)

def BLUE : Color := (0, 0, 255)

def GREEN : Color := (0, 255, 0)

def YELLOW : Color := (255, 255, 0)

/-- The seven shape matrices of `Constants.SHAPES` (I, L, J, O, S, Z, T). -/
def SHAPES : List (List (List Nat)) :=
  [ [[1, 1, 1, 1]],
    [[1, 1, 1], [0, 0, 1]],
    [[1, 1, 1], [1, 0, 0]],
    [[1, 1], [1, 1]],
    [[1, 1, 0], [0, 1, 1]],
    [[0, 1, 1], [1, 1, 0]],
    [[1, 1, 1], [0, 1, 0]] ]

def SHAPE_COLORS : List Color :=
  [CYAN, RED, MAGENTA, WHITE, GREEN, YELLOW, BLUE]

def emptyRow : List Cell := List.replicate GRID_WIDTH none

/-- The all-empty grid built by `GameState.reset`:
`[[0 for _ in range(GRID_WIDTH)] for _ in range(GRID_HEIGHT)]`. -/
def emptyGrid : Grid := List.replicate GRID_HEIGHT emptyRow

/-- Reading `grid[y][x]`.  The source only ever reads the grid at
indices that are checked in-bounds first (`0 <= y < GRID_HEIGHT`,
`0 <= x < GRID_WIDTH`), where this agrees with the Python indexing. -/
def gridCell (g : Grid) (y x : Int) : Cell :=
  (g.getD y.toNat []).getD x.toNat none

/-! ### The piece (class `Tetrimino`) -/

structure Tetrimino where
  shape : List (List Nat)
  color : Color
  x : Int
  y : Int
  rotation : Nat
deriving DecidableEq

/-- Source `Tetrimino.__init__`: spawn at
`x = GRID_WIDTH // 2 - len(shape[0]) // 2`, `y = 0`. -/
def Tetrimino.init (shape : List (List Nat)) (color : Color) : Tetrimino :=
  { shape := shape, color := color,
    x := (GRID_WIDTH : Int) / 2 - ((shape.headD []).length : Int) / 2,
    y := 0, rotation := 0 }

/-- Source `Tetrimino.valid_move(grid, dx, dy)`: every occupied shape cell,
placed at `(x + col + dx, y + row + dy)`, must have its horizontal
position in `[0, GRID_WIDTH)` and vertical position `< GRID_HEIGHT`,
and if the vertical position is `>= 0` the grid cell there must be
empty. -/
def Tetrimino.valid_move (t : Tetrimino) (grid : Grid) (dx dy : Int) : Bool :=
  (List.range t.shape.length).all fun row =>
    (List.range (t.shape.getD row []).length).all fun col =>
      if (t.shape.getD row []).getD col 0 ≠ 0 then
        if t.x + col + dx < 0 ∨ (GRID_WIDTH : Int) ≤ t.x + col + dx ∨
            (GRID_HEIGHT : Int) ≤ t.y + row + dy then
          false
        else if 0 ≤ t.y + row + dy ∧
            (gridCell grid (t.y + row + dy) (t.x + col + dx)).isSome = true then
          false
        else true
      else true

/-- Source `Tetrimino.move(grid, dx, dy)`: commit the translation when
`valid_move` accepts it, returning whether it was applied. -/
def Tetrimino.move (t : Tetrimino) (grid : Grid) (dx dy : Int) : Tetrimino × Bool :=
  if t.valid_move grid dx dy then
    ({ t with x := t.x + dx, y := t.y + dy }, true)
  else
    (t, false)

/-- Python `zip(*rows)` on a list of rows: the `i`-th output row
collects the `i`-th entry of every input row, and the output stops at
the shortest input row. -/
def zipCols (rows : List (List Nat)) : List (List Nat) :=
  if rows.isEmpty then []
  else
    (List.range (rows.foldl (fun m r => min m r.length) (rows.headD []).length)).map
      fun i => rows.map fun r => r.getD i 0

/-- The candidate shape of `Tetrimino.rotate`:
`zip(*self.shape[::-1])`, i.e. reverse the row order, then transpose. -/
def rotateShape (shape : List (List Nat)) : List (List Nat) :=
  zipCols shape.reverse

/-- Source `Tetrimino.rotate(grid)`: build the rotated candidate shape, test
it with `valid_move(grid, 0, 0)` at the unchanged anchor, and commit
it only if it is valid; the returned flag records whether the rotation
was applied (in the source this drives the rotate sound effect). -/
def Tetrimino.rotate (t : Tetrimino) (grid : Grid) : Tetrimino × Bool :=
  if (Tetrimino.valid_move { t with shape := rotateShape t.shape } grid 0 0) then
    ({ t with shape := rotateShape t.shape }, true)
  else
    (t, false)

/-- Rotation formula as the specification words it (for comparison
with the source's `rotateShape`): a counter-clockwise quarter turn,
`new[i][j] = old[j][old_cols - 1 - i]`. -/
def rotateCCWSpec (shape : List (List Nat)) : List (List Nat) :=
  (List.range (shape.headD []).length).map fun i =>
    (List.range shape.length).map fun j =>
      (shape.getD j []).getD ((shape.headD []).length - 1 - i) 0

/-! ### The game state (class `GameState`)

The fields mirror the attributes set in `GameState.__init__` /
`GameState.reset`: the three held keys and their last-move timestamps
(the dictionaries over `K_LEFT`, `K_RIGHT`, `K_DOWN`) become three
pairs of fields, `settings.repeat_delay` (the only settings field the
core logic reads) becomes `repeat_delay`, and `move_delay` is the
initial-press delay.  Timestamps are integers: `last_fall_time` and
the `last_move_*` fields are on the millisecond tick clock, while
`last_skill_time` is on the wall-clock seconds of `time.time()`. -/

structure GameState where
  grid : Grid
  score : Nat
  last_skill_time : Int
  current_tetrimino : Tetrimino
  next_tetrimino : Tetrimino
  falling_speed : Nat
  last_fall_time : Int
  total_lines_cleared : Nat
  game_over : Bool
  paused : Bool
  held_left : Bool
  held_right : Bool
  held_down : Bool
  last_move_left : Int
  last_move_right : Int
  last_move_down : Int
  move_delay : Nat
  repeat_delay : Nat
deriving DecidableEq

/-- Source `GameState.reset`: all-empty grid, score 0, skill timer at the
constant `-SKILL_COOLDOWN`, fresh active and preview pieces (the two
`new_tetrimino()` results are passed in as `p1`, `p2`), falling speed
500, fall timer at the current tick, and cleared flags. -/
def GameState.reset (s : GameState) (nowTicks : Int) (p1 p2 : Tetrimino) : GameState :=
  { s with
    grid := emptyGrid, score := 0, last_skill_time := -SKILL_COOLDOWN,
    current_tetrimino := p1, next_tetrimino := p2, falling_speed := 500,
    last_fall_time := nowTicks, total_lines_cleared := 0,
    game_over := false, paused := false }

/-- Source `GameState.__init__`: `reset()` followed by the held-key and
last-move dictionaries (all false / 0) and
`move_delay = INITIAL_MOVE_DELAY`.  The pieces and the repeat delay
are parameters (random spawns and the settings value). -/
def initState (nowTicks : Int) (p1 p2 : Tetrimino) (rd : Nat) : GameState :=
  { grid := emptyGrid, score := 0, last_skill_time := -SKILL_COOLDOWN,
    current_tetrimino := p1, next_tetrimino := p2, falling_speed := 500,
    last_fall_time := nowTicks, total_lines_cleared := 0,
    game_over := false, paused := false,
    held_left := false, held_right := false, held_down := false,
    last_move_left := 0, last_move_right := 0, last_move_down := 0,
    move_delay := INITIAL_MOVE_DELAY, repeat_delay := rd }

/-- Source `new_tetrimino()` with random index `i`:
`Tetrimino(SHAPES[i], SHAPE_COLORS[i])`. -/
def spawnPiece (i : Nat) : Tetrimino :=
  Tetrimino.init (SHAPES.getD i []) (SHAPE_COLORS.getD i (0, 0, 0))

/-- A piece that `new_tetrimino()` can produce: one of the seven
archetypes at its spawn position. -/
def isArchetype (t : Tetrimino) : Prop :=
  ∃ i, i < 7 ∧ t = spawnPiece i

/-- Grid part of `GameState.clear_lines`: keep the rows with at least
one empty cell, count the removed (full) rows against `GRID_HEIGHT`,
and prepend that many empty rows. -/
def clearLinesGrid (g : Grid) : Grid × Nat :=
  let new_grid := g.filter fun row => row.any fun cell => cell.isNone
  let lines_cleared := GRID_HEIGHT - new_grid.length
  (List.replicate lines_cleared (List.replicate GRID_WIDTH none) ++ new_grid, lines_cleared)

/-- Source `GameState.clear_lines`: remove the full rows, award
`50 * (2 ** lines_cleared - 1)` when at least one line was cleared,
and return the count. -/
def GameState.clear_lines (s : GameState) : GameState × Nat :=
  let cl := clearLinesGrid s.grid
  ({ s with
     grid := cl.1,
     score := if 0 < cl.2 then s.score + 50 * (2 ^ cl.2 - 1) else s.score }, cl.2)

/-- Zeroing one grid row cell by cell
(`self.grid[y][x] = 0 for x in range(GRID_WIDTH)`). -/
def zeroRowCells (row : List Cell) : List Cell :=
  (List.range GRID_WIDTH).foldl (fun r xi => r.set xi none) row

/-- Zeroing the bottom three rows
(`for y in range(GRID_HEIGHT - 3, GRID_HEIGHT)`). -/
def zeroBottomThree (g : Grid) : Grid :=
  (List.range' (GRID_HEIGHT - 3) 3).foldl (fun gr yi => gr.set yi (zeroRowCells (gr.getD yi []))) g

/-- The occupancy test of `clear_last_three_rows`: does any cell of
the bottom three rows hold a block? -/
def hasBlocksBottomThree (g : Grid) : Bool :=
  (List.range' (GRID_HEIGHT - 3) 3).any fun yi =>
    (List.range GRID_WIDTH).any fun xi => ((g.getD yi []).getD xi none).isSome

/-- Source `GameState.clear_last_three_rows` (the row-crush skill), with the
wall-clock `time.time()` passed as `now`: refuse while the cooldown
has not elapsed, or when the bottom three rows are all empty;
otherwise zero the bottom three rows, rebuild the grid as three fresh
empty rows on top of `grid[:-3]`, award 100 points, and stamp the
cooldown timer. -/
def GameState.clear_last_three_rows (s : GameState) (now : Int) : GameState × Bool :=
  if now - s.last_skill_time < SKILL_COOLDOWN then (s, false)
  else if GRID_HEIGHT < 3 then (s, false)
  else if hasBlocksBottomThree s.grid = false then (s, false)
  else
    let zeroed := zeroBottomThree s.grid
    let new_grid := List.replicate 3 (List.replicate GRID_WIDTH none) ++
      zeroed.take (zeroed.length - 3)
    ({ s with grid := new_grid, score := s.score + 100, last_skill_time := now }, true)

/-- Writing the locked piece into the grid:
`self.grid[y + row][x + col] = color` for every occupied shape cell.
The written indices are in range in every reachable state (the claim
proved below), where `Int.toNat` indexing agrees with the source. -/
def lockPiece (g : Grid) (t : Tetrimino) : Grid :=
  (List.range t.shape.length).foldl
    (fun gr row =>
      (List.range (t.shape.getD row []).length).foldl
        (fun gr2 col =>
          if (t.shape.getD row []).getD col 0 ≠ 0 then
            gr2.set (t.y + row).toNat
              ((gr2.getD (t.y + row).toNat []).set (t.x + col).toNat (some t.color))
          else gr2)
        gr)
    g

/-- Lines 345-347 of `GameState.update` together with the preceding
`total_lines_cleared += lines_cleared`: add the cleared count to the
running total and, once it reaches 10, drop the falling speed by 50
(floored at 100) and carry the remainder. -/
def applySpeedup (falling_speed total_lines_cleared n : Nat) : Nat × Nat :=
  if 10 ≤ total_lines_cleared + n then
    (max 100 (falling_speed - 50), total_lines_cleared + n - 10)
  else (falling_speed, total_lines_cleared + n)

/-- One key of the held-key loop in `GameState.update`: when the key
is held and its delay (initial `move_delay` for the first repeat,
`repeat_delay` afterwards) has elapsed, attempt the move and stamp the
key's last-move time whether or not the move succeeded. -/
def heldKeyStep (grid : Grid) (move_delay repeat_delay : Nat) (now : Int)
    (held : Bool) (lastMove : Int) (piece : Tetrimino) (dx dy : Int) :
    Tetrimino × Int :=
  if held then
    if (if lastMove = 0 then (move_delay : Int) < now - lastMove
        else (repeat_delay : Int) < now - lastMove) then
      ((piece.move grid dx dy).1, now)
    else (piece, lastMove)
  else (piece, lastMove)

/-- The held-key loop of `GameState.update` over `K_LEFT`, `K_RIGHT`,
`K_DOWN`, in that order. -/
def processHeld (s : GameState) (now : Int) : GameState :=
  let r1 := heldKeyStep s.grid s.move_delay s.repeat_delay now
    s.held_left s.last_move_left s.current_tetrimino (-1) 0
  let r2 := heldKeyStep s.grid s.move_delay s.repeat_delay now
    s.held_right s.last_move_right r1.1 1 0
  let r3 := heldKeyStep s.grid s.move_delay s.repeat_delay now
    s.held_down s.last_move_down r2.1 0 1
  { s with
    current_tetrimino := r3.1,
    last_move_left := r1.2, last_move_right := r2.2, last_move_down := r3.2 }

/-- The automatic-fall part of `GameState.update`: once the falling
delay has elapsed, move the piece down, or — when that fails — lock
it, clear full lines and score them, apply the speed-up rule, promote
the preview piece (the fresh random preview is the `spawn` parameter),
and flag game over when the promoted piece is invalid at its position. -/
def fallStep (s : GameState) (now : Int) (spawn : Tetrimino) : GameState :=
  if (s.falling_speed : Int) < now - s.last_fall_time then
    if (s.current_tetrimino.move s.grid 0 1).2 then
      { s with
        current_tetrimino := (s.current_tetrimino.move s.grid 0 1).1,
        last_fall_time := now }
    else
      let cl := GameState.clear_lines
        { s with grid := lockPiece s.grid s.current_tetrimino, last_fall_time := now }
      let sp := applySpeedup s.falling_speed s.total_lines_cleared cl.2
      let s3 : GameState :=
        { cl.1 with
          falling_speed := sp.1, total_lines_cleared := sp.2,
          current_tetrimino := s.next_tetrimino, next_tetrimino := spawn,
          last_fall_time := now }
      if s3.current_tetrimino.valid_move s3.grid 0 0 then s3
      else { s3 with game_over := true }
  else s

/-- Source `GameState.update`: a no-op while paused or game over; otherwise
the held-key loop followed by the automatic fall. -/
def GameState.update (s : GameState) (now : Int) (spawn : Tetrimino) : GameState :=
  if s.paused || s.game_over then s
  else fallStep (processHeld s now) now spawn

/-! ### The command entry points of `GameController._handle_event` -/

/-- The `K_LEFT` key-down (allowed only while not paused): record the held
key and its press time, and immediately attempt the move. -/
def pressKeyLeft (s : GameState) (nowTicks : Int) : GameState :=
  { s with
    held_left := true, last_move_left := nowTicks,
    current_tetrimino := (s.current_tetrimino.move s.grid (-1) 0).1 }

/-- The `K_RIGHT` key-down. -/
def pressKeyRight (s : GameState) (nowTicks : Int) : GameState :=
  { s with
    held_right := true, last_move_right := nowTicks,
    current_tetrimino := (s.current_tetrimino.move s.grid 1 0).1 }

/-- The `K_DOWN` key-down. -/
def pressKeyDown (s : GameState) (nowTicks : Int) : GameState :=
  { s with
    held_down := true, last_move_down := nowTicks,
    current_tetrimino := (s.current_tetrimino.move s.grid 0 1).1 }

/-- The `K_UP` key-down: rotate the active piece. -/
def rotateCommand (s : GameState) : GameState :=
  { s with current_tetrimino := (s.current_tetrimino.rotate s.grid).1 }

/-- The `K_RETURN` key: toggle pause. -/
def togglePause (s : GameState) : GameState :=
  { s with paused := !s.paused }

/-- Key-up on the three movement keys. -/
def releaseKeyLeft (s : GameState) : GameState := { s with held_left := false }

def releaseKeyRight (s : GameState) : GameState := { s with held_right := false }

def releaseKeyDown (s : GameState) : GameState := { s with held_down := false }

/-- Source `GameSettings.set_repeat_delay`: clamp to
`[MIN_REPEAT_DELAY, MAX_REPEAT_DELAY]`. -/
def setRepeatDelay (s : GameState) (d : Nat) : GameState :=
  { s with repeat_delay := max MIN_REPEAT_DELAY (min MAX_REPEAT_DELAY d) }

/-- The game states reachable through the program's entry points: the
constructor, `reset` (the `R` key and the outer run loop), the
per-frame `update`, and the event handlers.  Randomly spawned pieces
are constrained to the seven archetypes, and the key-down / rotate /
row-crush commands are only reachable while not paused, as in
`_handle_event`. -/
inductive Reachable : GameState → Prop where
  | init : ∀ now p1 p2 rd, isArchetype p1 → isArchetype p2 →
      Reachable (initState now p1 p2 rd)
  | reset : ∀ s now p1 p2, Reachable s → isArchetype p1 → isArchetype p2 →
      Reachable (s.reset now p1 p2)
  | update : ∀ s now spawn, Reachable s → isArchetype spawn →
      Reachable (s.update now spawn)
  | pressLeft : ∀ s now, Reachable s → s.paused = false →
      Reachable (pressKeyLeft s now)
  | pressRight : ∀ s now, Reachable s → s.paused = false →
      Reachable (pressKeyRight s now)
  | pressDown : ∀ s now, Reachable s → s.paused = false →
      Reachable (pressKeyDown s now)
  | rotate : ∀ s, Reachable s → s.paused = false →
      Reachable (rotateCommand s)
  | pause : ∀ s, Reachable s → Reachable (togglePause s)
  | releaseLeft : ∀ s, Reachable s → Reachable (releaseKeyLeft s)
  | releaseRight : ∀ s, Reachable s → Reachable (releaseKeyRight s)
  | releaseDown : ∀ s, Reachable s → Reachable (releaseKeyDown s)
  | crush : ∀ s now, Reachable s → s.paused = false →
      Reachable (s.clear_last_three_rows now).1
  | setRepeat : ∀ s d, Reachable s → Reachable (setRepeatDelay s d)

/-- Bounds of every occupied cell of a piece, as they are needed for
the locking loop: horizontal position inside `[0, GRID_WIDTH)` and
vertical position below `GRID_HEIGHT`. -/
def pieceInBounds (t : Tetrimino) : Bool :=
  (List.range t.shape.length).all fun row =>
    (List.range (t.shape.getD row []).length).all fun col =>
      if (t.shape.getD row []).getD col 0 ≠ 0 then
        decide (0 ≤ t.x + col ∧ t.x + col < (GRID_WIDTH : Int) ∧
          t.y + row < (GRID_HEIGHT : Int))
      else true

/-- The inductive invariant behind the lock-safety claim: anchors
never move up (both pieces sit at non-negative `y`), and while the
game is running the active piece's occupied cells are inside the
horizontal range and above the floor. -/
def CoreInv (s : GameState) : Prop :=
  0 ≤ s.current_tetrimino.y ∧ 0 ≤ s.next_tetrimino.y ∧
    (s.game_over = false → pieceInBounds s.current_tetrimino = true)

/-- The O piece. -/
def pieceO : Tetrimino := spawnPiece 3

/-- A concrete run used as a witness: start from a fresh state with O
pieces and tick `update` once every 501 milliseconds, so every tick
fires the automatic fall. -/
def demoRun : Nat → GameState
  | 0 => initState 0 pieceO pieceO 100
  | n + 1 => (demoRun n).update (501 * (n + 1 : Nat) : Nat) pieceO

/-- A concrete state with a settled block in the bottom rows, used as
a witness for the row-crush claim. -/
def crushDemoState : GameState :=
  { initState 0 pieceO pieceO 100 with
    grid := List.replicate 19 emptyRow ++ [List.replicate 10 (some RED)] }

/-! ### Helper lemmas about the piece operations -/

lemma bool_eq_of_true_iff {a b : Bool} (h : (a = true) ↔ (b = true)) : a = b := by
  cases a <;> cases b <;> simp_all

lemma cell_guard_eq_true {occ A B : Prop} [Decidable occ] [Decidable A] [Decidable B] :
    ((if occ then (if A then false else if B then false else true) else true) = true) ↔
      (occ → ¬A ∧ ¬B) := by
  split_ifs <;> simp_all

lemma guard_decide_eq_true {occ Q : Prop} [Decidable occ] [Decidable Q] :
    ((if occ then decide Q else true) = true) ↔ (occ → Q) := by
  split_ifs <;> simp_all

/-- Pointwise reading of `valid_move`. -/
lemma valid_move_iff (t : Tetrimino) (g : Grid) (dx dy : Int) :
    t.valid_move g dx dy = true ↔
      ∀ row < t.shape.length, ∀ col < (t.shape.getD row []).length,
        (t.shape.getD row []).getD col 0 ≠ 0 →
          ¬(t.x + col + dx < 0 ∨ (GRID_WIDTH : Int) ≤ t.x + col + dx ∨
              (GRID_HEIGHT : Int) ≤ t.y + row + dy) ∧
          ¬(0 ≤ t.y + row + dy ∧
              (gridCell g (t.y + row + dy) (t.x + col + dx)).isSome = true) := by
  simp only [Tetrimino.valid_move, List.all_eq_true, List.mem_range, cell_guard_eq_true]

/-- Pointwise reading of `pieceInBounds`. -/
lemma pieceInBounds_iff (t : Tetrimino) :
    pieceInBounds t = true ↔
      ∀ row < t.shape.length, ∀ col < (t.shape.getD row []).length,
        (t.shape.getD row []).getD col 0 ≠ 0 →
          0 ≤ t.x + col ∧ t.x + col < (GRID_WIDTH : Int) ∧
            t.y + row < (GRID_HEIGHT : Int) := by
  simp only [pieceInBounds, List.all_eq_true, List.mem_range, guard_decide_eq_true]

/-- A piece that is valid at its own position has all its occupied
cells in the horizontal range and above the floor. -/
lemma pieceInBounds_of_valid (t : Tetrimino) (g : Grid)
    (h : t.valid_move g 0 0 = true) : pieceInBounds t = true := by
  rw [pieceInBounds_iff]
  rw [valid_move_iff] at h
  intro row hrow col hcol hocc
  have h2 := (h row hrow col hcol hocc).1
  push_neg at h2
  refine ⟨by omega, by omega, by omega⟩

/-- Validity of the translated piece at offset `(0,0)` is validity of
the original piece at the offset. -/
lemma valid_move_shift (t : Tetrimino) (g : Grid) (dx dy : Int) :
    Tetrimino.valid_move { t with x := t.x + dx, y := t.y + dy } g 0 0 =
      t.valid_move g dx dy := by
  apply bool_eq_of_true_iff
  rw [valid_move_iff, valid_move_iff]
  have e1 : ∀ c : Nat, t.x + dx + (c : Int) + 0 = t.x + c + dx := fun c => by ring
  have e2 : ∀ r : Nat, t.y + dy + (r : Int) + 0 = t.y + r + dy := fun r => by ring
  simp only [e1, e2]

lemma move_snd (t : Tetrimino) (g : Grid) (dx dy : Int) :
    (t.move g dx dy).2 = t.valid_move g dx dy := by
  unfold Tetrimino.move
  split_ifs with h <;> simp [h]

lemma move_of_valid (t : Tetrimino) (g : Grid) (dx dy : Int)
    (h : t.valid_move g dx dy = true) :
    t.move g dx dy = ({ t with x := t.x + dx, y := t.y + dy }, true) := by
  unfold Tetrimino.move
  rw [if_pos h]

lemma move_of_invalid (t : Tetrimino) (g : Grid) (dx dy : Int)
    (h : t.valid_move g dx dy = false) :
    t.move g dx dy = (t, false) := by
  unfold Tetrimino.move
  rw [h]
  simp

/-! ### The rotated shape of a rectangular matrix -/

lemma foldl_min_const {C : Nat} :
    ∀ l : List (List Nat), (∀ r ∈ l, r.length = C) →
      l.foldl (fun m r => min m r.length) C = C := by
  intro l
  induction l with
  | nil => intro _; rfl
  | cons a as ih =>
    intro h
    have ha : a.length = C := h a (List.mem_cons_self a as)
    simp only [List.foldl_cons, ha, min_self]
    exact ih fun r hr => h r (List.mem_cons_of_mem a hr)

lemma zipCols_length {C : Nat} (rows : List (List Nat)) (hne : rows ≠ [])
    (hrect : ∀ r ∈ rows, r.length = C) : (zipCols rows).length = C := by
  unfold zipCols
  rw [if_neg (by simpa using hne)]
  have hh : (rows.headD []).length = C :=
    hrect _ (by cases rows with
      | nil => exact absurd rfl hne
      | cons a as => exact List.mem_cons_self a as)
  rw [hh, foldl_min_const rows hrect]
  simp

lemma getD_map_range {α : Type} (d : α) (f : Nat → α) (C i : Nat) (hi : i < C) :
    ((List.range C).map f).getD i d = f i := by
  rw [List.getD_eq_getElem _ _ (by simpa using hi), List.getElem_map, List.getElem_range]

lemma getD_map_getD (rows : List (List Nat)) (i j : Nat) (hj : j < rows.length) :
    (rows.map fun r => r.getD i 0).getD j 0 = (rows.getD j []).getD i 0 := by
  rw [List.getD_eq_getElem _ _ (by simpa using hj), List.getElem_map,
    List.getD_eq_getElem rows [] hj]

lemma getD_reverse (l : List (List Nat)) (j : Nat) (hj : j < l.length) :
    l.reverse.getD j [] = l.getD (l.length - 1 - j) [] := by
  rw [List.getD_eq_getElem _ _ (by simpa using hj), List.getElem_reverse,
    List.getD_eq_getElem l [] (by omega)]

lemma zipCols_entry {C : Nat} (rows : List (List Nat)) (hne : rows ≠ [])
    (hrect : ∀ r ∈ rows, r.length = C) (i j : Nat) (hi : i < C)
    (hj : j < rows.length) :
    ((zipCols rows).getD i []).getD j 0 = (rows.getD j []).getD i 0 := by
  unfold zipCols
  rw [if_neg (by simpa using hne)]
  have hh : (rows.headD []).length = C :=
    hrect _ (by cases rows with
      | nil => exact absurd rfl hne
      | cons a as => exact List.mem_cons_self a as)
  rw [hh, foldl_min_const rows hrect, getD_map_range _ _ C i hi,
    getD_map_getD rows i j hj]

lemma zipCols_row_length {C : Nat} (rows : List (List Nat)) (hne : rows ≠ [])
    (hrect : ∀ r ∈ rows, r.length = C) (i : Nat) (hi : i < C) :
    ((zipCols rows).getD i []).length = rows.length := by
  unfold zipCols
  rw [if_neg (by simpa using hne)]
  have hh : (rows.headD []).length = C :=
    hrect _ (by cases rows with
      | nil => exact absurd rfl hne
      | cons a as => exact List.mem_cons_self a as)
  rw [hh, foldl_min_const rows hrect, getD_map_range _ _ C i hi]
  simp

/-- The committed candidate of `rotateShape` is the clockwise quarter
turn: entry `(i, j)` of the result is entry `(rows - 1 - j, i)` of the
input. -/
lemma rotateShape_entry {C : Nat} (shape : List (List Nat)) (hne : shape ≠ [])
    (hrect : ∀ r ∈ shape, r.length = C) (i j : Nat) (hi : i < C)
    (hj : j < shape.length) :
    ((rotateShape shape).getD i []).getD j 0 =
      (shape.getD (shape.length - 1 - j) []).getD i 0 := by
  unfold rotateShape
  have hne' : shape.reverse ≠ [] := by simpa using hne
  have hrect' : ∀ r ∈ shape.reverse, r.length = C := by
    intro r hr
    exact hrect r (List.mem_reverse.mp hr)
  rw [zipCols_entry shape.reverse hne' hrect' i j hi (by simpa using hj),
    getD_reverse shape j (by simpa using hj)]

/-! ### Claim C1 -/

/-- Claim C1, counterexample: the claim asserts the rotation candidate
follows the counter-clockwise formula `new[i][j] = old[j][cols-1-i]`.
On the L piece over the empty grid, `Tetrimino.rotate` commits
`[[0,1],[0,1],[1,1]]` (a clockwise quarter turn of `[[1,1,1],[0,0,1]]`),
while the claimed formula yields `[[1,1],[1,0],[1,0]]`. -/
theorem c1_counterexample :
    ((Tetrimino.init [[1, 1, 1], [0, 0, 1]] RED).rotate emptyGrid).1.shape =
        [[0, 1], [0, 1], [1, 1]] ∧
    rotateCCWSpec [[1, 1, 1], [0, 0, 1]] = [[1, 1], [1, 0], [1, 0]] ∧
    ((Tetrimino.init [[1, 1, 1], [0, 0, 1]] RED).rotate emptyGrid).1.shape ≠
        rotateCCWSpec [[1, 1, 1], [0, 0, 1]] := by
  refine ⟨by decide, by decide, by decide⟩

/-- Claim C1 (amended): `Tetrimino.rotate` computes its candidate
shape by rotating the current `rows × C` shape matrix 90° clockwise —
`new[i][j] = old[rows-1-j][i]`, i.e. transpose after reversing the row
order ("rotate right") — then checks the candidate at the piece's
current anchor with no wall-kick offset search: if the candidate fails
`valid_move(grid, 0, 0)` the original shape is retained, otherwise the
candidate shape is committed; the operation reports whether the
rotation was applied. -/
theorem c1_theorem (t : Tetrimino) (g : Grid) (C : Nat)
    (hne : t.shape ≠ []) (hrect : ∀ r ∈ t.shape, r.length = C) :
    (rotateShape t.shape).length = C ∧
    (∀ i, i < C → ((rotateShape t.shape).getD i []).length = t.shape.length) ∧
    (∀ i, i < C → ∀ j, j < t.shape.length →
      ((rotateShape t.shape).getD i []).getD j 0 =
        (t.shape.getD (t.shape.length - 1 - j) []).getD i 0) ∧
    (t.rotate g).2 = Tetrimino.valid_move { t with shape := rotateShape t.shape } g 0 0 ∧
    ((t.rotate g).2 = true → (t.rotate g).1 = { t with shape := rotateShape t.shape }) ∧
    ((t.rotate g).2 = false → (t.rotate g).1 = t) := by
  have hne' : t.shape.reverse ≠ [] := by simpa using hne
  have hrect' : ∀ r ∈ t.shape.reverse, r.length = C := fun r hr =>
    hrect r (List.mem_reverse.mp hr)
  refine ⟨?_, ?_, ?_, ?_, ?_, ?_⟩
  · unfold rotateShape
    exact zipCols_length t.shape.reverse hne' hrect'
  · intro i hi
    unfold rotateShape
    rw [zipCols_row_length t.shape.reverse hne' hrect' i hi]
    simp
  · intro i hi j hj
    exact rotateShape_entry t.shape hne hrect i j hi hj
  · unfold Tetrimino.rotate
    split_ifs <;> simp_all
  · unfold Tetrimino.rotate
    split_ifs <;> simp_all
  · unfold Tetrimino.rotate
    split_ifs <;> simp_all

/-- Witness for C1 at the L piece on the empty grid. -/
theorem c1_witness :
    ((Tetrimino.init [[1, 1, 1], [0, 0, 1]] RED).shape ≠ []) ∧
    (((Tetrimino.init [[1, 1, 1], [0, 0, 1]] RED).rotate emptyGrid).2 = true →
      ((Tetrimino.init [[1, 1, 1], [0, 0, 1]] RED).rotate emptyGrid).1 =
        { Tetrimino.init [[1, 1, 1], [0, 0, 1]] RED with
          shape := rotateShape (Tetrimino.init [[1, 1, 1], [0, 0, 1]] RED).shape }) :=
  ⟨by decide,
    (c1_theorem (Tetrimino.init [[1, 1, 1], [0, 0, 1]] RED) emptyGrid 3
      (by decide) (by decide)).2.2.2.2.1⟩

/-! ### Claims C6 and C10 -/

/-- Claim C6: `Tetrimino.move` commits the translation and returns
true exactly when `valid_move` accepts the offset, returns false with
the position unchanged otherwise, and immediately after a successful
move the piece is valid at offset `(0,0)`. -/
theorem c6_theorem (t : Tetrimino) (g : Grid) (dx dy : Int) :
    (t.move g dx dy).2 = t.valid_move g dx dy ∧
    (t.valid_move g dx dy = true →
      t.move g dx dy = ({ t with x := t.x + dx, y := t.y + dy }, true)) ∧
    (t.valid_move g dx dy = false → t.move g dx dy = (t, false)) ∧
    ((t.move g dx dy).2 = true →
      Tetrimino.valid_move (t.move g dx dy).1 g 0 0 = true) := by
  refine ⟨move_snd t g dx dy, move_of_valid t g dx dy, move_of_invalid t g dx dy, ?_⟩
  intro h
  have hv : t.valid_move g dx dy = true := by
    rw [← move_snd t g dx dy]
    exact h
  rw [move_of_valid t g dx dy hv]
  show Tetrimino.valid_move { t with x := t.x + dx, y := t.y + dy } g 0 0 = true
  rw [valid_move_shift]
  exact hv

/-- Witness for C6: the O piece moving one row down on the empty grid. -/
theorem c6_witness :
    pieceO.valid_move emptyGrid 0 1 = true ∧
    pieceO.move emptyGrid 0 1 =
      ({ pieceO with x := pieceO.x + 0, y := pieceO.y + 1 }, true) :=
  ⟨by decide, (c6_theorem pieceO emptyGrid 0 1).2.1 (by decide)⟩

/-- Claim C10: rejected commands are frame-preserving — a `move` that
returns false leaves the piece (position, shape, color) unchanged, and
`rotate` never changes the anchor or the color, and leaves the piece
entirely unchanged when it is rejected.  (`valid_move` is modelled as
a pure function: the source method only reads the piece and the grid,
and neither `move` nor `rotate` writes the grid.) -/
theorem c10_theorem (t : Tetrimino) (g : Grid) (dx dy : Int) :
    ((t.move g dx dy).2 = false → (t.move g dx dy).1 = t) ∧
    ((t.rotate g).1.x = t.x ∧ (t.rotate g).1.y = t.y ∧
      (t.rotate g).1.color = t.color) ∧
    ((t.rotate g).2 = false → (t.rotate g).1 = t) := by
  unfold Tetrimino.move Tetrimino.rotate
  refine ⟨?_, ?_, ?_⟩ <;> split_ifs <;> simp_all

/-- Witness for C10: a move far past the left wall is rejected and
leaves the O piece unchanged. -/
theorem c10_witness :
    (pieceO.move emptyGrid (-100) 0).2 = false ∧
    (pieceO.move emptyGrid (-100) 0).1 = pieceO :=
  ⟨by decide, (c10_theorem pieceO emptyGrid (-100) 0).1 (by decide)⟩

/-! ### Claims C2, C3, C4 -/

/-- The source keeps the rows with an empty cell; a row has an empty
cell exactly when it is not full. -/
lemma any_isNone_eq_not_all_isSome (l : List Cell) :
    (l.any fun c => c.isNone) = !(l.all fun c => c.isSome) := by
  induction l with
  | nil => rfl
  | cons a as ih => cases a <;> simp [ih]

/-- Claim C2: on a grid of `GRID_HEIGHT` rows, `clear_lines` removes
exactly the full rows, returns their count, prepends that many empty
rows, leaves exactly `GRID_HEIGHT` rows, and keeps the non-full rows
in their original relative order (they are exactly the filtered
sublist). -/
theorem c2_theorem (g : Grid) (hlen : g.length = GRID_HEIGHT)
    (hw : ∀ r ∈ g, r.length = GRID_WIDTH) :
    ((clearLinesGrid g).1).length = GRID_HEIGHT ∧
    (clearLinesGrid g).2 = (g.filter fun r => r.all fun c => c.isSome).length ∧
    (clearLinesGrid g).1 =
      List.replicate (clearLinesGrid g).2 (List.replicate GRID_WIDTH none) ++
        (g.filter fun r => !(r.all fun c => c.isSome)) := by
  have hpred : (fun row : List Cell => row.any fun cell => cell.isNone) =
      (fun row : List Cell => !(row.all fun c => c.isSome)) := by
    funext row
    exact any_isNone_eq_not_all_isSome row
  have hsplit := List.length_eq_length_filter_add (l := g)
    (fun r => r.all fun c => c.isSome)
  have hle : (g.filter fun row : List Cell => row.any fun cell => cell.isNone).length ≤
      g.length := List.length_filter_le _ g
  refine ⟨?_, ?_, ?_⟩
  · unfold clearLinesGrid
    simp only [List.length_append, List.length_replicate]
    omega
  · unfold clearLinesGrid
    simp only
    rw [hpred]
    omega
  · unfold clearLinesGrid
    simp only
    rw [hpred]

/-- Witness for C2: a grid with its bottom row full. -/
theorem c2_witness :
    ((List.replicate 19 emptyRow ++ [List.replicate 10 (some RED)] : Grid).length =
      GRID_HEIGHT) ∧
    (clearLinesGrid (List.replicate 19 emptyRow ++ [List.replicate 10 (some RED)])).2 =
      ((List.replicate 19 emptyRow ++ [List.replicate 10 (some RED)] : Grid).filter
        fun r => r.all fun c => c.isSome).length :=
  ⟨by decide,
    (c2_theorem (List.replicate 19 emptyRow ++ [List.replicate 10 (some RED)])
      (by decide) (by decide)).2.1⟩

/-- Claim C3: one lock event's `clear_lines` adds exactly
`50 * (2 ^ n - 1)` points for `n` cleared lines — 0 for `n = 0`
(so 50, 150, 350, 750 for 1–4 lines). -/
theorem c3_theorem (s : GameState) :
    ((s.clear_lines).1).score = s.score + 50 * (2 ^ (s.clear_lines).2 - 1) ∧
    ((s.clear_lines).2 = 0 → ((s.clear_lines).1).score = s.score) := by
  unfold GameState.clear_lines
  simp only
  constructor
  · by_cases h : 0 < (clearLinesGrid s.grid).2
    · rw [if_pos h]
    · rw [if_neg h]
      have h0 : (clearLinesGrid s.grid).2 = 0 := by omega
      rw [h0]
      simp
  · intro h0
    have h0' : (clearLinesGrid s.grid).2 = 0 := h0
    rw [if_neg (by omega)]

lemma applySpeedup_bounds (speed total n : Nat) (hfloor : 100 ≤ speed) :
    100 ≤ (applySpeedup speed total n).1 ∧ (applySpeedup speed total n).1 ≤ speed := by
  unfold applySpeedup
  split_ifs <;> simp only <;> omega

lemma fallStep_speed (s : GameState) (now : Int) (spawn : Tetrimino) :
    (fallStep s now spawn).falling_speed = s.falling_speed ∨
    ∃ k, (fallStep s now spawn).falling_speed =
      (applySpeedup s.falling_speed s.total_lines_cleared k).1 := by
  unfold fallStep
  by_cases h1 : (s.falling_speed : Int) < now - s.last_fall_time
  · rw [if_pos h1]
    by_cases h2 : (s.current_tetrimino.move s.grid 0 1).2 = true
    · rw [if_pos h2]
      exact Or.inl rfl
    · rw [if_neg h2]
      right
      refine ⟨(GameState.clear_lines
        { s with
          grid := lockPiece s.grid s.current_tetrimino, last_fall_time := now }).2, ?_⟩
      dsimp only
      split_ifs <;> rfl
  · rw [if_neg h1]
    exact Or.inl rfl

/-- Only `applySpeedup` ever changes the falling speed inside
`update`. -/
lemma update_falling_speed (s : GameState) (now : Int) (spawn : Tetrimino) :
    (s.update now spawn).falling_speed = s.falling_speed ∨
    ∃ k, (s.update now spawn).falling_speed =
      (applySpeedup s.falling_speed s.total_lines_cleared k).1 := by
  unfold GameState.update
  by_cases h : s.paused || s.game_over
  · rw [if_pos h]
    exact Or.inl rfl
  · rw [if_neg h]
    have hp : (processHeld s now).falling_speed = s.falling_speed := rfl
    have ht : (processHeld s now).total_lines_cleared = s.total_lines_cleared := rfl
    rcases fallStep_speed (processHeld s now) now spawn with h1 | ⟨k, hk⟩
    · exact Or.inl (h1.trans hp)
    · refine Or.inr ⟨k, hk.trans ?_⟩
      rw [hp, ht]

/-- Claim C4: adding the lines cleared at a lock to the running total,
once the total reaches 10 the falling speed drops by exactly 50ms
(never below the 100ms floor, so exactly 50 whenever the speed is at
least 150) and exactly 10 is subtracted so the remainder carries;
otherwise speed and total are unchanged beyond the addition; hence the
falling speed of `update` is monotonically non-increasing. -/
theorem c4_theorem (speed total n : Nat) (hfloor : 100 ≤ speed) :
    (10 ≤ total + n →
      applySpeedup speed total n = (max 100 (speed - 50), total + n - 10)) ∧
    (total + n < 10 → applySpeedup speed total n = (speed, total + n)) ∧
    (150 ≤ speed → 10 ≤ total + n → (applySpeedup speed total n).1 = speed - 50) ∧
    100 ≤ (applySpeedup speed total n).1 ∧
    (applySpeedup speed total n).1 ≤ speed ∧
    (∀ s : GameState, ∀ now spawn, 100 ≤ s.falling_speed →
      (s.update now spawn).falling_speed ≤ s.falling_speed) := by
  refine ⟨?_, ?_, ?_, (applySpeedup_bounds speed total n hfloor).1,
    (applySpeedup_bounds speed total n hfloor).2, ?_⟩
  · intro h
    unfold applySpeedup
    rw [if_pos h]
  · intro h
    unfold applySpeedup
    rw [if_neg (by omega)]
  · intro h150 h10
    unfold applySpeedup
    rw [if_pos h10]
    simp only
    omega
  · intro s now spawn hs
    rcases update_falling_speed s now spawn with h | ⟨k, hk⟩
    · rw [h]
    · rw [hk]
      exact (applySpeedup_bounds s.falling_speed s.total_lines_cleared k hs).2

/-- Witness for C4: the 4+4+4 carry example — with 8 lines pending,
clearing 4 more triggers one speed-up (500 → 450) and leaves the
counter at 2. -/
theorem c4_witness :
    (100 ≤ 500) ∧ applySpeedup 500 8 4 = (450, 2) :=
  ⟨by decide, by
    have h := (c4_theorem 500 8 4 (by decide)).1 (by decide)
    simpa using h⟩

/-! ### Claim C5 -/

lemma take_set_of_le (l : Grid) (r : List Cell) (j k : Nat) (h : k ≤ j) :
    (l.set j r).take k = l.take k := by
  apply List.ext_getElem
  · simp [List.length_take]
  · intro i h1 h2
    have hik : i < k := by
      have h1' := h1
      rw [List.length_take] at h1'
      omega
    rw [List.getElem_take, List.getElem_take, List.getElem_set_ne (by omega)]

lemma length_zeroBottomThree (g : Grid) : (zeroBottomThree g).length = g.length := by
  have hr : List.range' (GRID_HEIGHT - 3) 3 = [17, 18, 19] := rfl
  unfold zeroBottomThree
  rw [hr]
  simp only [List.foldl_cons, List.foldl_nil, List.length_set]

/-- Zeroing the bottom three rows does not touch the rows above them. -/
lemma take_zeroBottomThree (g : Grid) :
    (zeroBottomThree g).take (GRID_HEIGHT - 3) = g.take (GRID_HEIGHT - 3) := by
  have hr : List.range' (GRID_HEIGHT - 3) 3 = [17, 18, 19] := rfl
  unfold zeroBottomThree
  rw [hr]
  simp only [List.foldl_cons, List.foldl_nil]
  rw [take_set_of_le _ _ 19 _ (by decide), take_set_of_le _ _ 18 _ (by decide),
    take_set_of_le _ _ 17 _ (by decide)]

/-- Claim C5: the row-crush fires exactly when the 45s cooldown has
elapsed and some cell of the bottom three rows is occupied; otherwise
it is a complete no-op returning false; on success it returns true,
replaces the grid by three fresh empty rows on top of the original
rows above the crushed band (discarding nothing), adds exactly 100
points, and stamps the cooldown — so a second call within 45s of a
success changes nothing. -/
theorem c5_theorem (s : GameState) (now now2 : Int)
    (hlen : s.grid.length = GRID_HEIGHT) :
    ((s.clear_last_three_rows now).2 = true ↔
      (SKILL_COOLDOWN ≤ now - s.last_skill_time ∧
        hasBlocksBottomThree s.grid = true)) ∧
    ((s.clear_last_three_rows now).2 = false →
      s.clear_last_three_rows now = (s, false)) ∧
    ((s.clear_last_three_rows now).2 = true →
      s.clear_last_three_rows now =
        ({ s with
           grid := List.replicate 3 (List.replicate GRID_WIDTH none) ++
             s.grid.take (GRID_HEIGHT - 3),
           score := s.score + 100, last_skill_time := now }, true)) ∧
    ((s.clear_last_three_rows now).2 = true → now2 - now < SKILL_COOLDOWN →
      ((s.clear_last_three_rows now).1).clear_last_three_rows now2 =
        ((s.clear_last_three_rows now).1, false)) := by
  have hfire : SKILL_COOLDOWN ≤ now - s.last_skill_time →
      hasBlocksBottomThree s.grid = true →
      s.clear_last_three_rows now =
        ({ s with
           grid := List.replicate 3 (List.replicate GRID_WIDTH none) ++
             s.grid.take (GRID_HEIGHT - 3),
           score := s.score + 100, last_skill_time := now }, true) := by
    intro h1 h2
    unfold GameState.clear_last_three_rows
    rw [if_neg (by omega), if_neg (by decide), if_neg (by simp [h2])]
    dsimp only
    rw [length_zeroBottomThree, hlen, take_zeroBottomThree]
  have hnofire1 : now - s.last_skill_time < SKILL_COOLDOWN →
      s.clear_last_three_rows now = (s, false) := by
    intro h1
    unfold GameState.clear_last_three_rows
    rw [if_pos h1]
  have hnofire2 : hasBlocksBottomThree s.grid = false →
      s.clear_last_three_rows now = (s, false) := by
    intro h2
    unfold GameState.clear_last_three_rows
    by_cases h1 : now - s.last_skill_time < SKILL_COOLDOWN
    · rw [if_pos h1]
    · rw [if_neg h1, if_neg (by decide), if_pos h2]
  refine ⟨⟨?_, ?_⟩, ?_, ?_, ?_⟩
  · intro h
    by_cases h1 : now - s.last_skill_time < SKILL_COOLDOWN
    · rw [hnofire1 h1] at h
      simp at h
    · by_cases h2 : hasBlocksBottomThree s.grid = true
      · exact ⟨by omega, h2⟩
      · rw [hnofire2 (by simpa using h2)] at h
        simp at h
  · rintro ⟨h1, h2⟩
    rw [hfire h1 h2]
  · intro h
    by_cases h1 : now - s.last_skill_time < SKILL_COOLDOWN
    · exact hnofire1 h1
    · by_cases h2 : hasBlocksBottomThree s.grid = true
      · rw [hfire (by omega) h2] at h
        simp at h
      · exact hnofire2 (by simpa using h2)
  · intro h
    by_cases h1 : now - s.last_skill_time < SKILL_COOLDOWN
    · rw [hnofire1 h1] at h
      simp at h
    · by_cases h2 : hasBlocksBottomThree s.grid = true
      · exact hfire (by omega) h2
      · rw [hnofire2 (by simpa using h2)] at h
        simp at h
  · intro h hlt
    by_cases h1 : now - s.last_skill_time < SKILL_COOLDOWN
    · rw [hnofire1 h1] at h
      simp at h
    · by_cases h2 : hasBlocksBottomThree s.grid = true
      · rw [hfire (by omega) h2]
        unfold GameState.clear_last_three_rows
        rw [if_pos (show now2 - now < SKILL_COOLDOWN from by omega)]
      · rw [hnofire2 (by simpa using h2)] at h
        simp at h

/-- Witness for C5: with a full bottom row, a success at wall-time 10
followed by a second call at wall-time 20 leaves everything unchanged. -/
theorem c5_witness :
    crushDemoState.grid.length = GRID_HEIGHT ∧
    ((crushDemoState.clear_last_three_rows 10).1).clear_last_three_rows 20 =
      ((crushDemoState.clear_last_three_rows 10).1, false) :=
  ⟨by decide,
    (c5_theorem crushDemoState 10 20 (by decide)).2.2.2 (by decide) (by decide)⟩

/-! ### Claims C7 and C8 -/

/-- Setting game over inside `fallStep`: with the game running, the
tick ends in game over exactly when the fall fired, the downward move
failed (a lock), and the promoted preview piece is invalid at its
position against the cleared grid. -/
lemma fallStep_game_over (s : GameState) (now : Int) (spawn : Tetrimino)
    (hgo : s.game_over = false) :
    ((fallStep s now spawn).game_over = true ↔
      ((s.falling_speed : Int) < now - s.last_fall_time ∧
       (s.current_tetrimino.move s.grid 0 1).2 = false ∧
       s.next_tetrimino.valid_move
         (clearLinesGrid (lockPiece s.grid s.current_tetrimino)).1 0 0 = false)) := by
  unfold fallStep GameState.clear_lines
  dsimp only
  split_ifs with h1 h2 h3 <;> simp_all

/-- Claim C7: while paused or game over, `update` is the identity (no
held keys processed, no falling, score and grid and pieces untouched);
otherwise the tick sets `game_over` exactly when a lock event happens
and the newly promoted piece is invalid at offset `(0,0)` against the
updated grid. -/
theorem c7_theorem (s : GameState) (now : Int) (spawn : Tetrimino) :
    (s.paused = true → s.update now spawn = s) ∧
    (s.game_over = true → s.update now spawn = s) ∧
    (s.paused = false → s.game_over = false →
      ((s.update now spawn).game_over = true ↔
        ((s.falling_speed : Int) < now - s.last_fall_time ∧
         ((processHeld s now).current_tetrimino.move s.grid 0 1).2 = false ∧
         s.next_tetrimino.valid_move
           (clearLinesGrid (lockPiece s.grid
             (processHeld s now).current_tetrimino)).1 0 0 = false))) := by
  refine ⟨?_, ?_, ?_⟩
  · intro h
    unfold GameState.update
    rw [if_pos (by simp [h])]
  · intro h
    unfold GameState.update
    rw [if_pos (by simp [h])]
  · intro hp hg
    unfold GameState.update
    rw [if_neg (by simp [hp, hg])]
    have hgo1 : (processHeld s now).game_over = false := hg
    rw [fallStep_game_over (processHeld s now) now spawn hgo1]
    exact Iff.rfl

/-- Witness for C7: a paused state is left untouched by `update`. -/
theorem c7_witness :
    ({ initState 0 pieceO pieceO 100 with paused := true } : GameState).paused = true ∧
    ({ initState 0 pieceO pieceO 100 with paused := true } : GameState).update 501 pieceO =
      { initState 0 pieceO pieceO 100 with paused := true } :=
  ⟨by decide, (c7_theorem _ 501 pieceO).1 (by decide)⟩

/-- Claim C8, counterexample: `reset` stores the constant
`-SKILL_COOLDOWN = -45` in the cooldown timestamp, not
`now - cooldown`: at wall-clock time 1000 the claimed value would be
955. -/
theorem c8_counterexample :
    ((initState 0 pieceO pieceO 100).reset 0 pieceO pieceO).last_skill_time = -45 ∧
    (1000 : Int) - SKILL_COOLDOWN ≠
      ((initState 0 pieceO pieceO 100).reset 0 pieceO pieceO).last_skill_time := by
  refine ⟨by decide, by decide⟩

/-- Claim C8 (amended): `reset` reinitializes the grid to all-empty,
the score to 0, the falling speed to 500ms, sets the cooldown
timestamp to the constant `0 - cooldown` (not `now - cooldown`; since
the wall clock is non-negative this still makes the ability
immediately usable at game start), installs the two freshly spawned
pieces, and clears both the gameOver and paused flags. -/
theorem c8_theorem (s : GameState) (nowTicks : Int) (p1 p2 : Tetrimino) :
    s.reset nowTicks p1 p2 =
      { s with
        grid := List.replicate GRID_HEIGHT (List.replicate GRID_WIDTH none),
        score := 0, last_skill_time := 0 - SKILL_COOLDOWN,
        current_tetrimino := p1, next_tetrimino := p2, falling_speed := 500,
        last_fall_time := nowTicks, total_lines_cleared := 0,
        game_over := false, paused := false } ∧
    (∀ nowWall : Int, 0 ≤ nowWall →
      ¬(nowWall - (s.reset nowTicks p1 p2).last_skill_time < SKILL_COOLDOWN)) := by
  constructor
  · rfl
  · intro nw hnw
    show ¬(nw - -(45 : Int) < 45)
    omega

/-- Witness for C8 at wall-clock time 1000. -/
theorem c8_witness :
    (0 : Int) ≤ 1000 ∧
    ¬((1000 : Int) -
        ((initState 0 pieceO pieceO 100).reset 7 pieceO pieceO).last_skill_time <
      SKILL_COOLDOWN) :=
  ⟨by decide,
    (c8_theorem (initState 0 pieceO pieceO 100) 7 pieceO pieceO).2 1000 (by decide)⟩

/-! ### Claim C9: the lock loop never writes out of range -/

lemma move_fst_y (t : Tetrimino) (g : Grid) (dx dy : Int)
    (hy : 0 ≤ t.y) (hdy : 0 ≤ dy) : 0 ≤ (t.move g dx dy).1.y := by
  unfold Tetrimino.move
  split_ifs
  · dsimp only
    omega
  · exact hy

lemma move_pieceInBounds (t : Tetrimino) (g : Grid) (dx dy : Int)
    (hb : pieceInBounds t = true) : pieceInBounds (t.move g dx dy).1 = true := by
  unfold Tetrimino.move
  split_ifs with h
  · exact pieceInBounds_of_valid _ g (by rw [valid_move_shift]; exact h)
  · exact hb

lemma rotate_fst_y (t : Tetrimino) (g : Grid) : (t.rotate g).1.y = t.y := by
  unfold Tetrimino.rotate
  split_ifs <;> rfl

lemma rotate_pieceInBounds (t : Tetrimino) (g : Grid)
    (hb : pieceInBounds t = true) : pieceInBounds (t.rotate g).1 = true := by
  unfold Tetrimino.rotate
  split_ifs with h
  · exact pieceInBounds_of_valid _ g h
  · exact hb

lemma heldKeyStep_y {g : Grid} {md rd : Nat} {now : Int} {held : Bool} {lm : Int}
    {t : Tetrimino} {dx dy : Int} (hy : 0 ≤ t.y) (hdy : 0 ≤ dy) :
    0 ≤ (heldKeyStep g md rd now held lm t dx dy).1.y := by
  unfold heldKeyStep
  split_ifs <;> dsimp only <;>
    first
      | exact move_fst_y t g dx dy hy hdy
      | exact hy

lemma heldKeyStep_pieceInBounds {g : Grid} {md rd : Nat} {now : Int} {held : Bool}
    {lm : Int} {t : Tetrimino} {dx dy : Int} (hb : pieceInBounds t = true) :
    pieceInBounds (heldKeyStep g md rd now held lm t dx dy).1 = true := by
  unfold heldKeyStep
  split_ifs <;> dsimp only <;>
    first
      | exact move_pieceInBounds t g dx dy hb
      | exact hb

lemma processHeld_y (s : GameState) (now : Int)
    (hy : 0 ≤ s.current_tetrimino.y) :
    0 ≤ (processHeld s now).current_tetrimino.y := by
  unfold processHeld
  dsimp only
  exact heldKeyStep_y (heldKeyStep_y (heldKeyStep_y hy (by norm_num)) (by norm_num))
    (by norm_num)

lemma processHeld_pieceInBounds (s : GameState) (now : Int)
    (hb : pieceInBounds s.current_tetrimino = true) :
    pieceInBounds (processHeld s now).current_tetrimino = true := by
  unfold processHeld
  dsimp only
  exact heldKeyStep_pieceInBounds
    (heldKeyStep_pieceInBounds (heldKeyStep_pieceInBounds hb))

lemma arch_y {p : Tetrimino} (h : isArchetype p) : p.y = 0 := by
  obtain ⟨i, hi, rfl⟩ := h
  rfl

lemma arch_pieceInBounds {p : Tetrimino} (h : isArchetype p) :
    pieceInBounds p = true := by
  obtain ⟨i, hi, rfl⟩ := h
  interval_cases i <;> decide

lemma coreInv_init (now : Int) (p1 p2 : Tetrimino) (rd : Nat)
    (h1 : isArchetype p1) (h2 : isArchetype p2) : CoreInv (initState now p1 p2 rd) := by
  refine ⟨?_, ?_, fun _ => arch_pieceInBounds h1⟩
  · show 0 ≤ p1.y
    rw [arch_y h1]
  · show 0 ≤ p2.y
    rw [arch_y h2]

lemma coreInv_reset (s : GameState) (now : Int) (p1 p2 : Tetrimino)
    (h1 : isArchetype p1) (h2 : isArchetype p2) : CoreInv (s.reset now p1 p2) := by
  refine ⟨?_, ?_, fun _ => arch_pieceInBounds h1⟩
  · show 0 ≤ p1.y
    rw [arch_y h1]
  · show 0 ≤ p2.y
    rw [arch_y h2]

lemma coreInv_update (s : GameState) (now : Int) (spawn : Tetrimino)
    (hInv : CoreInv s) (hsp : isArchetype spawn) : CoreInv (s.update now spawn) := by
  obtain ⟨hy, hny, hpib⟩ := hInv
  unfold GameState.update
  by_cases hpg : (s.paused || s.game_over) = true
  · rw [if_pos hpg]
    exact ⟨hy, hny, hpib⟩
  · rw [if_neg hpg]
    have hgo : s.game_over = false := by
      simp only [Bool.or_eq_true] at hpg
      push_neg at hpg
      simpa using hpg.2
    have hy1 : 0 ≤ (processHeld s now).current_tetrimino.y := processHeld_y s now hy
    have hpib1 : pieceInBounds (processHeld s now).current_tetrimino = true :=
      processHeld_pieceInBounds s now (hpib hgo)
    unfold fallStep
    by_cases h1 : ((processHeld s now).falling_speed : Int) <
        now - (processHeld s now).last_fall_time
    · rw [if_pos h1]
      by_cases h2 : ((processHeld s now).current_tetrimino.move
          (processHeld s now).grid 0 1).2 = true
      · rw [if_pos h2]
        refine ⟨?_, ?_, fun _ => ?_⟩
        · exact move_fst_y _ _ _ _ hy1 (by norm_num)
        · show 0 ≤ s.next_tetrimino.y
          exact hny
        · exact move_pieceInBounds _ _ _ _ hpib1
      · rw [if_neg h2]
        dsimp only
        split_ifs with h3
        · refine ⟨?_, ?_, fun _ => ?_⟩
          · show 0 ≤ s.next_tetrimino.y
            exact hny
          · show 0 ≤ spawn.y
            rw [arch_y hsp]
          · exact pieceInBounds_of_valid _ _ h3
        · refine ⟨?_, ?_, fun hcontra => ?_⟩
          · show 0 ≤ s.next_tetrimino.y
            exact hny
          · show 0 ≤ spawn.y
            rw [arch_y hsp]
          · exact absurd (show (true : Bool) = false from hcontra) (by decide)
    · rw [if_neg h1]
      exact ⟨hy1, hny, fun _ => hpib1⟩

lemma crush_fields (s : GameState) (now : Int) :
    ((s.clear_last_three_rows now).1).current_tetrimino = s.current_tetrimino ∧
    ((s.clear_last_three_rows now).1).next_tetrimino = s.next_tetrimino ∧
    ((s.clear_last_three_rows now).1).game_over = s.game_over := by
  unfold GameState.clear_last_three_rows
  split_ifs <;> exact ⟨rfl, rfl, rfl⟩

lemma coreInv_crush (s : GameState) (now : Int) (hInv : CoreInv s) :
    CoreInv ((s.clear_last_three_rows now).1) := by
  obtain ⟨hy, hny, hpib⟩ := hInv
  obtain ⟨e1, e2, e3⟩ := crush_fields s now
  refine ⟨?_, ?_, ?_⟩
  · rw [e1]
    exact hy
  · rw [e2]
    exact hny
  · intro hgo
    rw [e1]
    refine hpib ?_
    rw [e3] at hgo
    exact hgo

/-- Every reachable state satisfies the core invariant. -/
lemma reachable_coreInv {s : GameState} (h : Reachable s) : CoreInv s := by
  induction h with
  | init now p1 p2 rd h1 h2 => exact coreInv_init now p1 p2 rd h1 h2
  | reset s now p1 p2 _ h1 h2 _ => exact coreInv_reset s now p1 p2 h1 h2
  | update s now spawn _ hsp ih => exact coreInv_update s now spawn ih hsp
  | pressLeft s now _ _ ih =>
    obtain ⟨hy, hny, hpib⟩ := ih
    exact ⟨move_fst_y _ _ _ _ hy (by norm_num), hny,
      fun hgo => move_pieceInBounds _ _ _ _ (hpib hgo)⟩
  | pressRight s now _ _ ih =>
    obtain ⟨hy, hny, hpib⟩ := ih
    exact ⟨move_fst_y _ _ _ _ hy (by norm_num), hny,
      fun hgo => move_pieceInBounds _ _ _ _ (hpib hgo)⟩
  | pressDown s now _ _ ih =>
    obtain ⟨hy, hny, hpib⟩ := ih
    exact ⟨move_fst_y _ _ _ _ hy (by norm_num), hny,
      fun hgo => move_pieceInBounds _ _ _ _ (hpib hgo)⟩
  | rotate s _ _ ih =>
    obtain ⟨hy, hny, hpib⟩ := ih
    refine ⟨?_, hny, fun hgo => rotate_pieceInBounds _ _ (hpib hgo)⟩
    show 0 ≤ (s.current_tetrimino.rotate s.grid).1.y
    rw [rotate_fst_y]
    exact hy
  | pause s _ ih => exact ih
  | releaseLeft s _ ih => exact ih
  | releaseRight s _ ih => exact ih
  | releaseDown s _ ih => exact ih
  | crush s now _ _ ih => exact coreInv_crush s now ih
  | setRepeat s d _ ih => exact ih

/-- Claim C9: in every reachable game state, at a lock event (fall
fired, downward move rejected, game running) every occupied cell of
the locking piece — the active piece after the held-key phase — has
`0 ≤ y + row < GRID_HEIGHT` and `0 ≤ x + col < GRID_WIDTH`, so the
lock loop never indexes the grid out of range even though `valid_move`
permits cells above the top edge. -/
theorem c9_theorem (s : GameState) (hs : Reachable s) (now : Int)
    (hp : s.paused = false) (hgo : s.game_over = false)
    (hfire : (s.falling_speed : Int) < now - s.last_fall_time)
    (hfail : ((processHeld s now).current_tetrimino.move s.grid 0 1).2 = false)
    (row col : Nat)
    (hrow : row < (processHeld s now).current_tetrimino.shape.length)
    (hcol : col < ((processHeld s now).current_tetrimino.shape.getD row []).length)
    (hocc : ((processHeld s now).current_tetrimino.shape.getD row []).getD col 0 ≠ 0) :
    0 ≤ (processHeld s now).current_tetrimino.y + (row : Int) ∧
    (processHeld s now).current_tetrimino.y + (row : Int) < (GRID_HEIGHT : Int) ∧
    0 ≤ (processHeld s now).current_tetrimino.x + (col : Int) ∧
    (processHeld s now).current_tetrimino.x + (col : Int) < (GRID_WIDTH : Int) := by
  obtain ⟨hy, hny, hpib⟩ := reachable_coreInv hs
  have hy1 : 0 ≤ (processHeld s now).current_tetrimino.y := processHeld_y s now hy
  have hpib1 : pieceInBounds (processHeld s now).current_tetrimino = true :=
    processHeld_pieceInBounds s now (hpib hgo)
  have hb := (pieceInBounds_iff _).mp hpib1 row hrow col hcol hocc
  exact ⟨by omega, by omega, by omega, by omega⟩

lemma arch_pieceO : isArchetype pieceO := ⟨3, by norm_num, rfl⟩

lemma demoRun_reachable (n : Nat) : Reachable (demoRun n) := by
  induction n with
  | zero => exact Reachable.init 0 pieceO pieceO 100 arch_pieceO arch_pieceO
  | succ n ih => exact Reachable.update (demoRun n) _ pieceO ih arch_pieceO

/-- Witness for C9: after 18 ticks the O piece rests at `y = 18`; the
19th tick at time 9519 locks it, and the written cell for shape cell
`(0,0)` is in range. -/
theorem c9_witness :
    (demoRun 18).paused = false ∧
    (0 ≤ (processHeld (demoRun 18) 9519).current_tetrimino.y + ((0 : Nat) : Int) ∧
     (processHeld (demoRun 18) 9519).current_tetrimino.y + ((0 : Nat) : Int) <
       (GRID_HEIGHT : Int) ∧
     0 ≤ (processHeld (demoRun 18) 9519).current_tetrimino.x + ((0 : Nat) : Int) ∧
     (processHeld (demoRun 18) 9519).current_tetrimino.x + ((0 : Nat) : Int) <
       (GRID_WIDTH : Int)) :=
  ⟨by decide,
    c9_theorem (demoRun 18) (demoRun_reachable 18) 9519 (by decide) (by decide)
      (by decide) (by decide) 0 0 (by decide) (by decide) (by decide)⟩

